import Mathlib

/-!
Verification of the skaf0 artifact resolver (vrok/skaf0).

This file gives a shallow embedding of the resolver core defined in the
repository's main package: the `ArtifactResolver` state (artifact records,
watch registrations), watch-path derivation (`WatchPath`), single-target
rebuild triggering (`TriggerRebuild`), pattern fan-out (`TriggerRebuilds`,
including the gobwas/glob pattern matching it calls), dependency substitution
(`GetDependencies`) and watch registration (`AddWatch`).

The environment is made explicit: the result of `os.Getwd` is an
`Option String` parameter (`none` models a working-directory failure), the
filesystem is an association list from paths to byte lists, `os.CreateTemp`
is modelled as a fresh-name allocator driven by a counter (its success path;
disk-full style failures are environmental), `rand.Intn 256` is fed from an
explicit stream of numbers carried in the state, and channel delivery is a
log of `(channel, event)` pairs appended to on each send.
-/

set_option autoImplicit false

namespace Skaf0

/-! ## Go string helpers

Structural re-implementations of the Go standard-library string functions the
resolver uses, so that everything evaluates by kernel reduction. -/

/-- Go `unicode.IsSpace`: the Unicode White_Space property
(U+0009–U+000D, U+0020, U+0085, U+00A0, U+1680, U+2000–U+200A,
U+2028, U+2029, U+202F, U+205F, U+3000). -/
def goIsSpace (c : Char) : Bool :=
  (decide (0x09 ≤ c.val) && decide (c.val ≤ 0x0d)) || c.val == 0x20 ||
  c.val == 0x85 || c.val == 0xa0 || c.val == 0x1680 ||
  (decide (0x2000 ≤ c.val) && decide (c.val ≤ 0x200a)) ||
  c.val == 0x2028 || c.val == 0x2029 || c.val == 0x202f ||
  c.val == 0x205f || c.val == 0x3000

/-- Go `strings.TrimSpace`: drop leading and trailing white space. -/
def goTrimSpace (s : String) : String :=
  String.mk (((s.data.dropWhile goIsSpace).reverse.dropWhile goIsSpace).reverse)

/-- Go `strings.Split` with a one-character separator, on the character list:
splits around every occurrence of `sep` (empty fields preserved, and the
empty string yields one empty field, as in Go). -/
def splitOnChar (sep : Char) : List Char → List (List Char)
  | [] => [[]]
  | c :: rest =>
    if c = sep then
      [] :: splitOnChar sep rest
    else
      match splitOnChar sep rest with
      | [] => [[c]]
      | grp :: grps => (c :: grp) :: grps

/-- Go `strings.Split s ","` as used by `TriggerRebuilds`. -/
def goSplitComma (s : String) : List String :=
  (splitOnChar ',' s.data).map String.mk

/-- Join a list of strings with the Unix path separator (Go
`strings.Join elems "/"`). -/
def joinWithSlash : List String → String
  | [] => ""
  | [p] => p
  | p :: rest => p ++ "/" ++ joinWithSlash rest

/-- Go `filepath.IsAbs` on Unix: the path starts with a slash. -/
def isAbs (path : String) : Bool :=
  match path.data with
  | [] => false
  | c :: _ => c = '/'

/-- Core loop of Go `filepath.Clean` (Unix), on the list of `/`-separated
components: empty and `.` components are dropped; `..` pops the last kept
component when there is one (and it is not itself `..`), is kept for a
non-rooted path with nothing to pop, and is dropped at the root.
`acc` holds the kept components in reverse. -/
def cleanRev (rooted : Bool) : List String → List String → List String
  | acc, [] => acc.reverse
  | acc, p :: rest =>
    if p = "" ∨ p = "." then cleanRev rooted acc rest
    else if p = ".." then
      match acc with
      | [] => if rooted then cleanRev rooted [] rest else cleanRev rooted [".."] rest
      | top :: accRest =>
        if top = ".." then
          if rooted then cleanRev rooted (top :: accRest) rest
          else cleanRev rooted (".." :: top :: accRest) rest
        else cleanRev rooted accRest rest
    else cleanRev rooted (p :: acc) rest

/-- Go `filepath.Clean` for Unix paths. -/
def clean (path : String) : String :=
  if path = "" then "."
  else
    let rooted := isAbs path
    let parts := cleanRev rooted [] ((splitOnChar '/' path.data).map String.mk)
    let out := joinWithSlash parts
    if rooted then "/" ++ out
    else if out = "" then "." else out

/-- Go `filepath.Join` for Unix paths: skip leading empty elements, join the
rest with `/`, and `Clean` the result; all elements empty gives `""`. -/
def goJoin : List String → String
  | [] => ""
  | e :: rest => if e = "" then goJoin rest else clean (joinWithSlash (e :: rest))

/-! ## The gobwas/glob pattern language

`TriggerRebuilds` compiles each comma-separated pattern with
`glob.Compile(p)` (no separator runes) and matches whole artifact names.
With no separators, `*` and `**` both match any character sequence and `?`
matches any single character.  The parser below follows the library's
lexer and AST parser, not its README grammar:

* at top level, only `*`, `?`, `\`, `[` and `{` are special; `]`, `}`
  (outside an open brace group) and `,` (outside braces) are ordinary
  characters, and a trailing `\` is silently dropped;
* a character class is `[`, an optional `!`, then EITHER a single range
  `lo-hi` — recognised only when the very first content character is
  followed by `-`, with the `hi` character read raw (so `]` can be a range
  end) and the class closed immediately after — OR a non-empty list of
  characters read with `\` escapes up to `]`, in which `-` is ordinary;
  mixed forms (`[a-zA-Z]`), empty classes, reversed ranges (`[z-a]`) and
  ranges involving the NUL character are compile errors, as is an
  unterminated class;
* `{` always opens a brace group and `}` closes the innermost one; the
  library never checks that groups are closed, so an unclosed `{`
  compiles.  A group with a single alternative is semantically just its
  contents, so the parser treats braces as transparent grouping.  A comma,
  which the library reads as an alternative separator inside braces and as
  an ordinary character elsewhere, is treated as an ordinary character
  here: the resolver splits the pattern expression on every comma before
  compiling, so no comma can ever reach `glob.Compile` in this program.
-/

/-- One node of a compiled glob pattern. -/
inductive GlobNode where
  /-- a character that matches only itself -/
  | lit (c : Char)
  /-- `*`: any run of characters -/
  | any
  /-- `?`: exactly one character -/
  | one
  /-- `[lo-hi]` / `[!lo-hi]`: one character tested against the range -/
  | rng (neg : Bool) (lo hi : Char)
  /-- `[chars]` / `[!chars]`: one character tested against the list -/
  | lst (neg : Bool) (chars : List Char)
deriving DecidableEq, Repr

/-- Parser mode: at top level inside `level` open brace groups; at the
first content character of a class (where a following `-` makes a range);
or collecting a class character list (in reverse). -/
inductive ParseMode where
  | top (level : Nat)
  | classFirst (level : Nat) (neg : Bool)
  | classChars (level : Nat) (neg : Bool) (chars : List Char)

/-- Single-pass parser for the glob language above; `none` is a compile
error. -/
def parseAux : List Char → ParseMode → List GlobNode → Option (List GlobNode)
  | [], .top _, acc => some acc.reverse
  | [], .classFirst _ _, _ => none
  | [], .classChars _ _ _, _ => none
  | '*' :: rest, .top lv, acc => parseAux rest (.top lv) (.any :: acc)
  | '?' :: rest, .top lv, acc => parseAux rest (.top lv) (.one :: acc)
  | '\\' :: c :: rest, .top lv, acc => parseAux rest (.top lv) (.lit c :: acc)
  | ['\\'], .top _, acc => some acc.reverse
  | '{' :: rest, .top lv, acc => parseAux rest (.top (lv + 1)) acc
  | '}' :: rest, .top (lv + 1), acc => parseAux rest (.top lv) acc
  | '}' :: rest, .top 0, acc => parseAux rest (.top 0) (.lit '}' :: acc)
  | '[' :: '!' :: rest, .top lv, acc => parseAux rest (.classFirst lv true) acc
  | '[' :: rest, .top lv, acc => parseAux rest (.classFirst lv false) acc
  | c :: rest, .top lv, acc => parseAux rest (.top lv) (.lit c :: acc)
  | lo :: '-' :: hi :: ']' :: rest, .classFirst lv neg, acc =>
    if lo.val ≠ 0 ∧ hi.val ≠ 0 ∧ lo ≤ hi then
      parseAux rest (.top lv) (.rng neg lo hi :: acc)
    else none
  | _ :: '-' :: _, .classFirst _ _, _ => none
  | ']' :: _, .classFirst _ _, _ => none
  | '\\' :: c :: rest, .classFirst lv neg, acc =>
    parseAux rest (.classChars lv neg [c]) acc
  | ['\\'], .classFirst _ _, _ => none
  | c :: rest, .classFirst lv neg, acc =>
    parseAux rest (.classChars lv neg [c]) acc
  | ']' :: rest, .classChars lv neg cs, acc =>
    parseAux rest (.top lv) (.lst neg cs.reverse :: acc)
  | '\\' :: c :: rest, .classChars lv neg cs, acc =>
    parseAux rest (.classChars lv neg (c :: cs)) acc
  | ['\\'], .classChars _ _ _, _ => none
  | c :: rest, .classChars lv neg cs, acc =>
    parseAux rest (.classChars lv neg (c :: cs)) acc

/-- `glob.Compile p` (no separators): `none` models a compile error. -/
def globCompile (p : String) : Option (List GlobNode) :=
  parseAux p.data (.top 0) []

/-- Whole-string glob matching (`g.Match name`), by backtracking: `*` tries
every suffix of the remaining input; a range node tests code-point order, a
list node tests membership, both inverted under `!`. -/
def matchNodes : List GlobNode → List Char → Bool
  | [], xs => xs.isEmpty
  | .lit _ :: _, [] => false
  | .lit c :: ns, x :: xs => x == c && matchNodes ns xs
  | .one :: _, [] => false
  | .one :: ns, _ :: xs => matchNodes ns xs
  | .rng _ _ _ :: _, [] => false
  | .rng neg lo hi :: ns, x :: xs =>
    (decide (lo ≤ x) && decide (x ≤ hi)).xor neg && matchNodes ns xs
  | .lst _ _ :: _, [] => false
  | .lst neg cs :: ns, x :: xs => (cs.contains x).xor neg && matchNodes ns xs
  | .any :: ns, xs => xs.tails.any fun ys => matchNodes ns ys

/-- Whole-pattern match of a compiled glob against a string. -/
def globMatch (g : List GlobNode) (s : String) : Bool :=
  matchNodes g s.data

/-- Declarative matching of a compiled glob against a character list: a
literal consumes exactly itself (case-sensitively), `?` consumes exactly
one arbitrary character, `*` consumes an arbitrary run of characters, a
range class consumes one character inside (or, negated, outside) the
code-point range, and a list class one character in (negated, not in) the
list. -/
inductive GlobSem : List GlobNode → List Char → Prop
  | nil : GlobSem [] []
  | lit {c : Char} {ns : List GlobNode} {xs : List Char} :
      GlobSem ns xs → GlobSem (GlobNode.lit c :: ns) (c :: xs)
  | one {x : Char} {ns : List GlobNode} {xs : List Char} :
      GlobSem ns xs → GlobSem (GlobNode.one :: ns) (x :: xs)
  | any {run : List Char} {ns : List GlobNode} {xs : List Char} :
      GlobSem ns xs → GlobSem (GlobNode.any :: ns) (run ++ xs)
  | rngPos {lo hi x : Char} {ns : List GlobNode} {xs : List Char} :
      lo ≤ x → x ≤ hi → GlobSem ns xs →
      GlobSem (GlobNode.rng false lo hi :: ns) (x :: xs)
  | rngNeg {lo hi x : Char} {ns : List GlobNode} {xs : List Char} :
      ¬ (lo ≤ x ∧ x ≤ hi) → GlobSem ns xs →
      GlobSem (GlobNode.rng true lo hi :: ns) (x :: xs)
  | lstPos {cs : List Char} {x : Char} {ns : List GlobNode} {xs : List Char} :
      x ∈ cs → GlobSem ns xs →
      GlobSem (GlobNode.lst false cs :: ns) (x :: xs)
  | lstNeg {cs : List Char} {x : Char} {ns : List GlobNode} {xs : List Char} :
      x ∉ cs → GlobSem ns xs →
      GlobSem (GlobNode.lst true cs :: ns) (x :: xs)

/-! ## The resolver data model -/

/-- The `notify.Event` kinds used by the rjeczalik/notify library. -/
inductive NotifyEvent where
  | create
  | remove
  | write
  | rename
deriving DecidableEq, Repr

/-- `fakeEventInfo`: the synthetic event value sent on a watch channel; it
carries only the changed path. -/
structure FakeEventInfo where
  path : String
deriving DecidableEq, Repr

/-- `fakeEventInfo.Event()` always reports the generic write event. -/
def FakeEventInfo.event (_ : FakeEventInfo) : NotifyEvent :=
  NotifyEvent.write

/-- The `artifact` record: image name, declared workspace, trigger file. -/
structure Artifact where
  imageName : String
  workspace : String
  triggerFile : String
deriving DecidableEq, Repr

/-- The identity part of a `latest.Artifact` that `GetDependencies` reads
(`a.ImageName` and `a.Workspace`). -/
structure LatestArtifact where
  imageName : String
  workspace : String
deriving DecidableEq, Repr

/-- State of an `ArtifactResolver` together with the environment it acts on.
`artifacts` and `watches` are the resolver's two maps (as association lists
with unique keys; channels are identified by numbers).  `fs` is the disk
(path to byte contents), `tempCounter` drives fresh temp-file names,
`randStream` feeds `rand.Intn 256`, and `delivered` logs every channel send
in order. -/
structure ResolverState where
  artifacts : List (String × Artifact)
  watches : List (String × Nat)
  fs : List (String × List Nat)
  tempCounter : Nat
  randStream : List Nat
  delivered : List (Nat × FakeEventInfo)
deriving DecidableEq, Repr

/-- `NewArtifactResolver()` with a pristine environment. -/
def NewArtifactResolver : ResolverState :=
  { artifacts := [], watches := [], fs := [], tempCounter := 0,
    randStream := [], delivered := [] }

/-- Go map assignment `m[k] = v` on an association list: replace the
binding if the key is present, otherwise append it. -/
def setAssoc {α : Type} (l : List (String × α)) (k : String) (v : α) :
    List (String × α) :=
  match l with
  | [] => [(k, v)]
  | (k₀, v₀) :: rest =>
    if k₀ = k then (k, v) :: rest else (k₀, v₀) :: setAssoc rest k v

/-! ## The resolver operations -/

/-- `AddWatch`: unconditionally store `path ↦ c`; the event-kind filter is
accepted and ignored; the returned error is always nil (`none`). -/
def AddWatch (s : ResolverState) (path : String) (c : Nat)
    (_events : List NotifyEvent) : ResolverState × Option Unit :=
  ({ s with watches := setAssoc s.watches path c }, none)

/-- Failure of watch-path derivation. -/
inductive PathError where
  | environmentError
deriving DecidableEq, Repr

/-- `WatchPath`: obtain the working directory first (`wd = none` models
`os.Getwd` failing, and is an error regardless of the workspace); join an
absolute workspace with the `...` recursive marker, or join the working
directory, the workspace and the marker otherwise. -/
def WatchPath (wd : Option String) (workspace : String) :
    Except PathError String :=
  match wd with
  | none => Except.error PathError.environmentError
  | some w =>
    if isAbs workspace then Except.ok (goJoin [workspace, "..."])
    else Except.ok (goJoin [w, workspace, "..."])

/-- Failures of `TriggerRebuild`, mirroring its three error returns. -/
inductive TrigError where
  | artifactNotFound (artifactName : String)
  | pathDerivation (err : PathError)
  | watchNotFound (artifactName : String) (watchPath : String)
deriving DecidableEq, Repr

/-- `TriggerRebuild`: look up the artifact, derive its watch path, look up
the registered channel, write one fresh random byte over the trigger file,
and send a `fakeEventInfo` carrying the trigger-file path on the channel. -/
def TriggerRebuild (wd : Option String) (s : ResolverState)
    (artifactName : String) : ResolverState × Option TrigError :=
  match s.artifacts.lookup artifactName with
  | none => (s, some (TrigError.artifactNotFound artifactName))
  | some art =>
    match WatchPath wd art.workspace with
    | Except.error e => (s, some (TrigError.pathDerivation e))
    | Except.ok watchPath =>
      match s.watches.lookup watchPath with
      | none => (s, some (TrigError.watchNotFound artifactName watchPath))
      | some ch =>
        ({ s with
            fs := setAssoc s.fs art.triggerFile [s.randStream.headD 0 % 256],
            randStream := s.randStream.tail,
            delivered := s.delivered ++ [(ch, ⟨art.triggerFile⟩)] },
         none)

/-- The name `os.CreateTemp "" "skaf0-*"` allocates for the n-th temp file. -/
def tempFileName (n : Nat) : String :=
  "/tmp/skaf0-" ++ toString n

/-- `GetDependencies`: if a record for the image name exists, return its
trigger file; otherwise create a fresh empty temp file, store the new
record, and return the new trigger file.  The `cfg` and `ctx` arguments of
the Go function are unused there and omitted; `tag` is kept (and ignored). -/
def GetDependencies (s : ResolverState) (a : LatestArtifact) (_tag : String) :
    ResolverState × List String :=
  match s.artifacts.lookup a.imageName with
  | some art => (s, [art.triggerFile])
  | none =>
    ({ s with
        artifacts := s.artifacts ++
          [(a.imageName, ⟨a.imageName, a.workspace, tempFileName s.tempCounter⟩)],
        fs := s.fs ++ [(tempFileName s.tempCounter, [])],
        tempCounter := s.tempCounter + 1 },
     [tempFileName s.tempCounter])

/-- `GetArtifacts`: the currently-known artifact names. -/
def GetArtifacts (s : ResolverState) : List String :=
  s.artifacts.map Prod.fst

/-- The matching loop of `TriggerRebuilds`: compile each pattern in turn, a
compile error aborts the whole call naming the offending pattern, and each
compiled pattern appends every matching artifact name. -/
def collectMatches (names : List String) : List String → Except String (List String)
  | [] => Except.ok []
  | p :: ps =>
    match globCompile p with
    | none => Except.error p
    | some g =>
      match collectMatches names ps with
      | Except.error q => Except.error q
      | Except.ok rest => Except.ok (names.filter (fun nm => globMatch g nm) ++ rest)

/-- The matched-artifact computation of `TriggerRebuilds`: split the
expression on commas, trim each pattern, and run the matching loop over the
known artifact names. -/
def matchedArtifacts (s : ResolverState) (pattern : String) :
    Except String (List String) :=
  collectMatches (GetArtifacts s) ((goSplitComma pattern).map goTrimSpace)

/-- The triggering loop of `TriggerRebuilds`: attempt `TriggerRebuild` for
every matched name in order, collecting `(name, error)` pairs for the
failures and threading the state through. -/
def runTriggers (wd : Option String) :
    ResolverState → List String → ResolverState × List (String × TrigError)
  | s, [] => (s, [])
  | s, n :: rest =>
    match TriggerRebuild wd s n with
    | (s₁, none) => runTriggers wd s₁ rest
    | (s₁, some e) =>
      match runTriggers wd s₁ rest with
      | (s₂, errs) => (s₂, (n, e) :: errs)

/-- Failures of `TriggerRebuilds`, mirroring its three error returns. -/
inductive RebuildsError where
  | invalidPattern (pattern : String)
  | noMatch (patternExpression : String)
  | aggregate (errs : List (String × TrigError))
deriving DecidableEq, Repr

/-- `TriggerRebuilds`: match the comma-separated pattern expression against
the known artifact names, fail on an invalid pattern or an empty match set,
otherwise trigger every matched name and aggregate the per-artifact
failures (the stderr diagnostic print of the Go code is not modelled). -/
def TriggerRebuilds (wd : Option String) (s : ResolverState) (pattern : String) :
    ResolverState × Option RebuildsError :=
  match matchedArtifacts s pattern with
  | Except.error p => (s, some (RebuildsError.invalidPattern p))
  | Except.ok matched =>
    if matched.isEmpty then (s, some (RebuildsError.noMatch pattern))
    else
      match runTriggers wd s matched with
      | (s₁, errs) =>
        if errs.isEmpty then (s₁, none)
        else (s₁, some (RebuildsError.aggregate errs))

/-! ## Spec-side outcome functions

These classify, from a state, what `TriggerRebuild` would do for a name:
which error it returns (`none` meaning success), and which channel send it
performs (`none` meaning no send).  They read only the `artifacts` and
`watches` maps, which the triggering operations never modify. -/

/-- The error `TriggerRebuild wd s n` returns (`none` for success). -/
def trigStatus (wd : Option String) (s : ResolverState) (n : String) :
    Option TrigError :=
  match s.artifacts.lookup n with
  | none => some (TrigError.artifactNotFound n)
  | some art =>
    match WatchPath wd art.workspace with
    | Except.error e => some (TrigError.pathDerivation e)
    | Except.ok watchPath =>
      match s.watches.lookup watchPath with
      | none => some (TrigError.watchNotFound n watchPath)
      | some _ => none

/-- The channel send `TriggerRebuild wd s n` performs (`none` if it fails
before sending). -/
def trigEvent (wd : Option String) (s : ResolverState) (n : String) :
    Option (Nat × FakeEventInfo) :=
  match s.artifacts.lookup n with
  | none => none
  | some art =>
    match WatchPath wd art.workspace with
    | Except.error _ => none
    | Except.ok watchPath =>
      match s.watches.lookup watchPath with
      | none => none
      | some ch => some (ch, ⟨art.triggerFile⟩)


/-- Compile every pattern in the list, failing (with `none`) when any one of
them fails to compile. -/
def compileAll : List String → Option (List (List GlobNode))
  | [] => some []
  | p :: ps =>
    match globCompile p with
    | none => none
    | some g => (compileAll ps).map (fun gs => g :: gs)

/-- Modelled from the spec of claim C6 (the claim words, not the code):
read a pattern so that `*` and `?` are the only special characters and
every other character stands for itself. -/
def specParse : List Char → List GlobNode
  | [] => []
  | '*' :: rest => GlobNode.any :: specParse rest
  | '?' :: rest => GlobNode.one :: specParse rest
  | c :: rest => GlobNode.lit c :: specParse rest

/-- Modelled from the spec of claim C6 (the claim words, not the code):
matching where `*` matches any run of characters, `?` matches a single
character, and every other character matches only itself literally. -/
def specGlobMatch (p s : String) : Bool :=
  matchNodes (specParse p.data) s.data

/-- A sample two-artifact state used to instantiate the claim theorems:
artifact `"a"` has the absolute workspace `"/w"` whose derived watch path
`"/w/..."` is registered on channel 3; artifact `"b"` has the relative
workspace `"wb"` and no registered watch. -/
def sampleState : ResolverState :=
  { artifacts := [("a", ⟨"a", "/w", "/tmp/skaf0-0"⟩),
                  ("b", ⟨"b", "wb", "/tmp/skaf0-1"⟩)],
    watches := [("/w/...", 3)],
    fs := [("/tmp/skaf0-0", []), ("/tmp/skaf0-1", [])],
    tempCounter := 2,
    randStream := [7, 8],
    delivered := [] }

/-! ## Theorems: glob semantics -/

theorem matchNodes_sound (ns : List GlobNode) :
    ∀ xs : List Char, matchNodes ns xs = true → GlobSem ns xs := by
  induction ns with
  | nil =>
    intro xs h
    cases xs with
    | nil => exact GlobSem.nil
    | cons x xs => simp [matchNodes] at h
  | cons nd ns ih =>
    intro xs h
    cases nd with
    | lit c =>
      cases xs with
      | nil => simp [matchNodes] at h
      | cons x xs =>
        simp only [matchNodes, Bool.and_eq_true, beq_iff_eq] at h
        obtain ⟨rfl, h2⟩ := h
        exact GlobSem.lit (ih xs h2)
    | one =>
      cases xs with
      | nil => simp [matchNodes] at h
      | cons x xs => exact GlobSem.one (ih xs (by simpa [matchNodes] using h))
    | any =>
      simp only [matchNodes, List.any_eq_true] at h
      obtain ⟨ys, hmem, hys⟩ := h
      obtain ⟨pre, rfl⟩ := (List.mem_tails ys xs).mp hmem
      exact GlobSem.any (ih ys hys)
    | rng neg lo hi =>
      cases xs with
      | nil => simp [matchNodes] at h
      | cons x xs =>
        cases neg with
        | false =>
          simp only [matchNodes, Bool.xor_false, Bool.and_eq_true,
            decide_eq_true_eq] at h
          exact GlobSem.rngPos h.1.1 h.1.2 (ih xs h.2)
        | true =>
          cases hcb : (decide (lo ≤ x) && decide (x ≤ hi)) with
          | true => simp [matchNodes, hcb] at h
          | false =>
            refine GlobSem.rngNeg (fun hc => ?_)
              (ih xs (by simpa [matchNodes, hcb] using h))
            simp [hc.1, hc.2] at hcb
    | lst neg cs =>
      cases xs with
      | nil => simp [matchNodes] at h
      | cons x xs =>
        cases neg with
        | false =>
          simp only [matchNodes, Bool.xor_false, Bool.and_eq_true] at h
          exact GlobSem.lstPos (List.elem_iff.mp h.1) (ih xs h.2)
        | true =>
          cases hcb : cs.contains x with
          | true =>
            simp only [matchNodes, hcb] at h
            simp at h
          | false =>
            refine GlobSem.lstNeg (fun hc => ?_)
              (ih xs (by
                simp only [matchNodes, hcb] at h
                simpa using h))
            have hct : cs.contains x = true := List.elem_iff.mpr hc
            rw [hcb] at hct
            exact Bool.noConfusion hct

theorem GlobSem.toMatch {ns : List GlobNode} {xs : List Char}
    (h : GlobSem ns xs) : matchNodes ns xs = true := by
  induction h with
  | nil => rfl
  | lit _ ih => simp [matchNodes, ih]
  | one _ ih => simp [matchNodes, ih]
  | any h2 ih =>
    rename_i run ns xs
    simp only [matchNodes, List.any_eq_true]
    exact ⟨xs, (List.mem_tails xs (run ++ xs)).mpr ⟨run, rfl⟩, ih⟩
  | rngPos h1 h2 h3 ih => simp [matchNodes, h1, h2, ih]
  | rngNeg h1 h2 ih =>
    rename_i lo hi x ns xs
    have hcb : (decide (lo ≤ x) && decide (x ≤ hi)) = false := by
      cases hlo : decide (lo ≤ x) with
      | false => rfl
      | true =>
        cases hhi : decide (x ≤ hi) with
        | false => rfl
        | true =>
          exact absurd ⟨of_decide_eq_true hlo, of_decide_eq_true hhi⟩ h1
    simp [matchNodes, hcb, ih]
  | lstPos h1 h2 ih => simp [matchNodes, h1, ih]
  | lstNeg h1 h2 ih => simp [matchNodes, h1, ih]

/-- The executable matcher agrees exactly with the declarative glob
semantics. -/
theorem matchNodes_iff (ns : List GlobNode) (xs : List Char) :
    matchNodes ns xs = true ↔ GlobSem ns xs :=
  ⟨matchNodes_sound ns xs, GlobSem.toMatch⟩


/-! ## Theorems: list and map helpers -/

/-! ## Assoc-list helper lemmas -/

theorem lookup_setAssoc {α : Type} (l : List (String × α)) (k : String) (v : α) :
    (setAssoc l k v).lookup k = some v := by
  induction l with
  | nil => simp [setAssoc, List.lookup]
  | cons p rest ih =>
    obtain ⟨k₀, v₀⟩ := p
    by_cases hk : k₀ = k
    · subst hk
      simp [setAssoc, List.lookup]
    · have hne : (k == k₀) = false := beq_false_of_ne fun h => hk h.symm
      simp [setAssoc, hk, List.lookup, hne, ih]

theorem lookup_append_of_none {α : Type} {l₁ : List (String × α)}
    (l₂ : List (String × α)) {k : String} (h : l₁.lookup k = none) :
    (l₁ ++ l₂).lookup k = l₂.lookup k := by
  induction l₁ with
  | nil => simp
  | cons p rest ih =>
    obtain ⟨k₀, v₀⟩ := p
    cases hk : k == k₀ with
    | true => simp [List.lookup, hk] at h
    | false =>
      simp only [List.lookup, hk] at h
      simpa [List.lookup, hk] using ih h

theorem filterMap_cons_toList {α β : Type} (f : α → Option β) (a : α)
    (l : List α) :
    (a :: l).filterMap f = (f a).toList ++ l.filterMap f := by
  cases h : f a <;> simp [List.filterMap_cons, h]


/-! ## Theorems: triggering characterization -/

theorem trigStatus_congr (wd : Option String) {s₁ s₂ : ResolverState}
    (ha : s₁.artifacts = s₂.artifacts) (hw : s₁.watches = s₂.watches)
    (n : String) : trigStatus wd s₁ n = trigStatus wd s₂ n := by
  unfold trigStatus
  rw [ha, hw]

theorem trigEvent_congr (wd : Option String) {s₁ s₂ : ResolverState}
    (ha : s₁.artifacts = s₂.artifacts) (hw : s₁.watches = s₂.watches)
    (n : String) : trigEvent wd s₁ n = trigEvent wd s₂ n := by
  unfold trigEvent
  rw [ha, hw]

theorem TriggerRebuild_frame (wd : Option String) (s : ResolverState)
    (n : String) :
    (TriggerRebuild wd s n).1.artifacts = s.artifacts ∧
    (TriggerRebuild wd s n).1.watches = s.watches := by
  unfold TriggerRebuild
  repeat' split
  all_goals simp

theorem TriggerRebuild_snd (wd : Option String) (s : ResolverState)
    (n : String) : (TriggerRebuild wd s n).2 = trigStatus wd s n := by
  unfold TriggerRebuild trigStatus
  repeat' split
  all_goals simp_all

theorem TriggerRebuild_delivered (wd : Option String) (s : ResolverState)
    (n : String) :
    (TriggerRebuild wd s n).1.delivered
      = s.delivered ++ (trigEvent wd s n).toList := by
  unfold TriggerRebuild trigEvent
  repeat' split
  all_goals simp_all

/-- Full characterization of the triggering loop: the collected errors are
the failing names (with their reasons) in order, the delivery log grows by
exactly the sends of the succeeding names in order, and the two registry
maps are untouched. -/
theorem runTriggers_spec (wd : Option String) (names : List String) :
    ∀ s : ResolverState,
      (runTriggers wd s names).2
          = names.filterMap (fun n => (trigStatus wd s n).map fun e => (n, e)) ∧
      (runTriggers wd s names).1.delivered
          = s.delivered ++ names.filterMap (trigEvent wd s) ∧
      (runTriggers wd s names).1.artifacts = s.artifacts ∧
      (runTriggers wd s names).1.watches = s.watches := by
  induction names with
  | nil => intro s; simp [runTriggers]
  | cons n rest ih =>
    intro s
    have hframe := TriggerRebuild_frame wd s n
    have hsnd := TriggerRebuild_snd wd s n
    have hdel := TriggerRebuild_delivered wd s n
    cases ht : TriggerRebuild wd s n with
    | mk s₁ oe =>
      rw [ht] at hframe hsnd hdel
      simp only at hframe hsnd hdel
      obtain ⟨ihe, ihd, iha, ihw⟩ := ih s₁
      have hstat : ∀ m, trigStatus wd s₁ m = trigStatus wd s m :=
        trigStatus_congr wd hframe.1 hframe.2
      have hev : ∀ m, trigEvent wd s₁ m = trigEvent wd s m :=
        trigEvent_congr wd hframe.1 hframe.2
      have hfm_e : List.filterMap (trigEvent wd s₁) rest
          = List.filterMap (trigEvent wd s) rest :=
        List.filterMap_congr fun m _ => hev m
      have hfm_s :
          List.filterMap (fun m => (trigStatus wd s₁ m).map fun e => (m, e)) rest
            = List.filterMap (fun m => (trigStatus wd s m).map fun e => (m, e)) rest :=
        List.filterMap_congr fun m _ => by simp only [hstat]
      cases oe with
      | none =>
        have hrun : runTriggers wd s (n :: rest) = runTriggers wd s₁ rest := by
          simp [runTriggers, ht]
        rw [hrun]
        refine ⟨?_, ?_, iha.trans hframe.1, ihw.trans hframe.2⟩
        · rw [ihe, hfm_s, filterMap_cons_toList, ← hsnd]
          simp
        · rw [ihd, hfm_e, hdel, filterMap_cons_toList, List.append_assoc]
      | some e =>
        have hrun : runTriggers wd s (n :: rest)
            = ((runTriggers wd s₁ rest).1, (n, e) :: (runTriggers wd s₁ rest).2) := by
          simp [runTriggers, ht]
        rw [hrun]
        refine ⟨?_, ?_, iha.trans hframe.1, ihw.trans hframe.2⟩
        · rw [ihe, hfm_s, filterMap_cons_toList, ← hsnd]
          simp
        · rw [ihd, hfm_e, hdel, filterMap_cons_toList, List.append_assoc]


/-! ## Theorems: the matching loop -/

theorem collectMatches_ok (names : List String) :
    ∀ (ps : List String) (matched : List String),
      collectMatches names ps = Except.ok matched →
      ∃ gs, compileAll ps = some gs ∧
        matched = gs.flatMap fun g => names.filter fun nm => globMatch g nm := by
  intro ps
  induction ps with
  | nil =>
    intro matched h
    simp only [collectMatches, Except.ok.injEq] at h
    exact ⟨[], rfl, by simp [h]⟩
  | cons p ps ih =>
    intro matched h
    cases hg : globCompile p with
    | none => simp [collectMatches, hg] at h
    | some g =>
      cases hc : collectMatches names ps with
      | error q => simp [collectMatches, hg, hc] at h
      | ok rest =>
        simp only [collectMatches, hg, hc, Except.ok.injEq] at h
        obtain ⟨gs, hgs, hrest⟩ := ih rest hc
        refine ⟨g :: gs, by simp [compileAll, hg, hgs], ?_⟩
        simp [← h, hrest]

theorem collectMatches_err (names : List String) :
    ∀ (ps : List String) (q : String),
      ps.find? (fun p => (globCompile p).isNone) = some q →
      collectMatches names ps = Except.error q := by
  intro ps
  induction ps with
  | nil => intro q h; simp at h
  | cons p ps ih =>
    intro q h
    cases hg : globCompile p with
    | none =>
      rw [List.find?_cons_of_pos _ (by simp [hg])] at h
      cases h
      simp [collectMatches, hg]
    | some g =>
      rw [List.find?_cons_of_neg _ (by simp [hg])] at h
      simp [collectMatches, hg, ih q h]

theorem count_filter_eq {α : Type} [DecidableEq α] (p : α → Bool) (a : α)
    (l : List α) :
    (l.filter p).count a = if p a then l.count a else 0 := by
  induction l with
  | nil => simp
  | cons x xs ih =>
    by_cases hax : a = x
    · subst hax
      by_cases hx : p a <;> simp [List.filter_cons, hx, List.count_cons, ih]
    · by_cases hx : p x <;>
        simp [List.filter_cons, hx, List.count_cons, hax, ih]

theorem count_flatMap_filter (names : List String) (name : String)
    (h1 : names.count name = 1) (gs : List (List GlobNode)) :
    ((gs.flatMap fun g => names.filter fun nm => globMatch g nm).count name)
      = gs.countP fun g => globMatch g name := by
  induction gs with
  | nil => simp
  | cons g gs ih =>
    simp only [List.flatMap_cons, List.count_append, ih, List.countP_cons]
    rw [count_filter_eq]
    by_cases hm : globMatch g name <;> simp [hm, h1, Nat.add_comm]

theorem compileAll_countP (P : List GlobNode → Bool) :
    ∀ (ps : List String) (gs : List (List GlobNode)),
      compileAll ps = some gs →
      gs.countP P = ps.countP fun p =>
        match globCompile p with
        | some g => P g
        | none => false := by
  intro ps
  induction ps with
  | nil => intro gs h; simp only [compileAll, Option.some.injEq] at h; simp [← h]
  | cons p ps ih =>
    intro gs h
    cases hg : globCompile p with
    | none => simp [compileAll, hg] at h
    | some g =>
      cases hrec : compileAll ps with
      | none => simp [compileAll, hg, hrec] at h
      | some gs0 =>
        simp only [compileAll, hg, hrec, Option.map_some', Option.some.injEq] at h
        subst h
        simp [List.countP_cons, ih gs0 hrec, hg, Nat.add_comm]

/-! ## Claims -/

theorem getDependencies_existing {s : ResolverState} {a : LatestArtifact}
    {tag : String} {art : Artifact}
    (h : s.artifacts.lookup a.imageName = some art) :
    GetDependencies s a tag = (s, [art.triggerFile]) := by
  unfold GetDependencies
  rw [h]

/-- Claim C1 (corrected): `WatchPath` derives the watch path of an absolute
workspace as the workspace joined with the recursive marker (with a result
that does not depend on the working directory), and of a relative workspace
as the working directory joined with the workspace and the marker; its only
failure is the environment error, returned exactly when the working
directory cannot be determined — which, contrary to the claim as stated,
happens even for an absolute workspace, because the working directory is
consulted before the absoluteness test. -/
theorem claim_C1_watchPath (wd workspace : String) :
    WatchPath none workspace = Except.error PathError.environmentError
    ∧ (isAbs workspace = true →
        WatchPath (some wd) workspace = Except.ok (goJoin [workspace, "..."]))
    ∧ (isAbs workspace = false →
        WatchPath (some wd) workspace
          = Except.ok (goJoin [wd, workspace, "..."])) := by
  refine ⟨rfl, fun h => ?_, fun h => ?_⟩ <;> simp [WatchPath, h]

/-- Witness for claim C1 at the relative workspace `"ws"` under working
directory `"/wd"`. -/
theorem claim_C1_watchPath_wit :
    isAbs "ws" = false
    ∧ WatchPath (some "/wd") "ws" = Except.ok (goJoin ["/wd", "ws", "..."]) :=
  ⟨by decide, (claim_C1_watchPath "/wd" "ws").2.2 (by decide)⟩

/-- Counterexample to claim C1 as stated: `"/abs"` is an absolute workspace,
and yet when the working directory cannot be determined `WatchPath` fails
with the environment error, which the claim says cannot happen. -/
theorem claim_C1_watchPath_cex :
    isAbs "/abs" = true
    ∧ WatchPath none "/abs" = Except.error PathError.environmentError :=
  ⟨by decide, rfl⟩

/-- Claim C4 (confirmed): triggering a name with no record in the registry
fails with the artifact-not-found error and returns the state completely
unchanged — no file write, no event delivery. -/
theorem claim_C4_unknownArtifact (wd : Option String) (s : ResolverState)
    (name : String) (h : s.artifacts.lookup name = none) :
    TriggerRebuild wd s name = (s, some (TrigError.artifactNotFound name)) := by
  unfold TriggerRebuild
  rw [h]

/-- Witness for claim C4 at the unknown name `"zz"`. -/
theorem claim_C4_unknownArtifact_wit :
    sampleState.artifacts.lookup "zz" = none
    ∧ TriggerRebuild (some "/wd") sampleState "zz"
        = (sampleState, some (TrigError.artifactNotFound "zz")) :=
  ⟨by decide,
    claim_C4_unknownArtifact (some "/wd") sampleState "zz" (by decide)⟩

/-- Claim C5 (confirmed): triggering a known artifact whose derived watch
path has no registered channel fails with the watch-not-found error (naming
the artifact and the derived path) and returns the state unchanged — the
trigger file is not written and no event is delivered. -/
theorem claim_C5_unwatched (wd : Option String) (s : ResolverState)
    (name : String) (art : Artifact) (wp : String)
    (h1 : s.artifacts.lookup name = some art)
    (h2 : WatchPath wd art.workspace = Except.ok wp)
    (h3 : s.watches.lookup wp = none) :
    TriggerRebuild wd s name = (s, some (TrigError.watchNotFound name wp)) := by
  simp only [TriggerRebuild, h1, h2, h3]

/-- Witness for claim C5 at artifact `"b"`, whose derived watch path
`"/wd/wb/..."` has no registered channel. -/
theorem claim_C5_unwatched_wit :
    sampleState.artifacts.lookup "b" = some ⟨"b", "wb", "/tmp/skaf0-1"⟩
    ∧ WatchPath (some "/wd") "wb" = Except.ok "/wd/wb/..."
    ∧ sampleState.watches.lookup "/wd/wb/..." = none
    ∧ TriggerRebuild (some "/wd") sampleState "b"
        = (sampleState, some (TrigError.watchNotFound "b" "/wd/wb/...")) :=
  ⟨by decide, by rfl, by decide,
    claim_C5_unwatched (some "/wd") sampleState "b" ⟨"b", "wb", "/tmp/skaf0-1"⟩
      "/wd/wb/..." (by decide) (by rfl) (by decide)⟩

/-- Claim C10 (confirmed): a dependency inquiry for an image name whose
record already exists returns the stored trigger file and leaves the whole
state — in particular the record, its workspace and its trigger file —
unchanged, silently ignoring the newly supplied workspace and tag. -/
theorem claim_C10_existingRecord (s : ResolverState) (a : LatestArtifact)
    (tag : String) (art : Artifact)
    (h : s.artifacts.lookup a.imageName = some art) :
    GetDependencies s a tag = (s, [art.triggerFile]) :=
  getDependencies_existing h

/-- Witness for claim C10: re-declaring artifact `"a"` with a different
workspace and tag changes nothing and returns the original trigger file. -/
theorem claim_C10_existingRecord_wit :
    sampleState.artifacts.lookup "a" = some ⟨"a", "/w", "/tmp/skaf0-0"⟩
    ∧ GetDependencies sampleState ⟨"a", "different-ws"⟩ "other-tag"
        = (sampleState, ["/tmp/skaf0-0"]) :=
  ⟨by decide,
    claim_C10_existingRecord sampleState ⟨"a", "different-ws"⟩ "other-tag"
      ⟨"a", "/w", "/tmp/skaf0-0"⟩ (by decide)⟩

/-- Claim C3 (confirmed): triggering a known artifact whose derived watch
path has a registered channel succeeds, appends exactly one event to that
channel's delivery log carrying the artifact's trigger-file path, overwrites
the trigger file with exactly one byte, reports the generic write event
kind, and the event-kind filter passed at watch registration is ignored
entirely. -/
theorem claim_C3_triggerWatched (wd : Option String) (s : ResolverState)
    (name : String) (art : Artifact) (wp : String) (ch : Nat)
    (h1 : s.artifacts.lookup name = some art)
    (h2 : WatchPath wd art.workspace = Except.ok wp)
    (h3 : s.watches.lookup wp = some ch) :
    (TriggerRebuild wd s name).2 = none
    ∧ (TriggerRebuild wd s name).1.delivered
        = s.delivered ++ [(ch, FakeEventInfo.mk art.triggerFile)]
    ∧ (TriggerRebuild wd s name).1.fs.lookup art.triggerFile
        = some [s.randStream.headD 0 % 256]
    ∧ (FakeEventInfo.mk art.triggerFile).event = NotifyEvent.write
    ∧ ∀ (t : ResolverState) (p : String) (c : Nat)
        (evs evs' : List NotifyEvent),
        AddWatch t p c evs = AddWatch t p c evs' := by
  have ht : TriggerRebuild wd s name
      = ({ s with
            fs := setAssoc s.fs art.triggerFile [s.randStream.headD 0 % 256],
            randStream := s.randStream.tail,
            delivered := s.delivered ++ [(ch, ⟨art.triggerFile⟩)] }, none) := by
    simp only [TriggerRebuild, h1, h2, h3]
  refine ⟨by rw [ht], by rw [ht], ?_, rfl, fun _ _ _ _ _ => rfl⟩
  rw [ht]
  exact lookup_setAssoc s.fs art.triggerFile _

/-- Witness for claim C3 at the watched artifact `"a"` (channel 3). -/
theorem claim_C3_triggerWatched_wit :
    sampleState.artifacts.lookup "a" = some ⟨"a", "/w", "/tmp/skaf0-0"⟩
    ∧ WatchPath (some "/wd") "/w" = Except.ok "/w/..."
    ∧ sampleState.watches.lookup "/w/..." = some 3
    ∧ (TriggerRebuild (some "/wd") sampleState "a").2 = none
    ∧ (TriggerRebuild (some "/wd") sampleState "a").1.delivered
        = sampleState.delivered ++ [(3, FakeEventInfo.mk "/tmp/skaf0-0")]
    ∧ (TriggerRebuild (some "/wd") sampleState "a").1.fs.lookup "/tmp/skaf0-0"
        = some [7 % 256] :=
  have h := claim_C3_triggerWatched (some "/wd") sampleState "a"
    ⟨"a", "/w", "/tmp/skaf0-0"⟩ "/w/..." 3 (by decide) (by rfl) (by decide)
  ⟨by decide, by rfl, by decide, h.1, h.2.1, h.2.2.1⟩

/-- Claim C2 (confirmed): the first dependency inquiry for an unseen image
name returns the one-element list holding the freshly allocated trigger
file, appends exactly one record and creates exactly one (empty) trigger
file, and any immediately subsequent inquiry for the same image name
returns the same one-element list while changing nothing. -/
theorem claim_C2_firstInquiry (s : ResolverState) (a : LatestArtifact)
    (tag : String) (h : s.artifacts.lookup a.imageName = none) :
    (GetDependencies s a tag).2 = [tempFileName s.tempCounter]
    ∧ (GetDependencies s a tag).1.artifacts
        = s.artifacts
            ++ [(a.imageName, ⟨a.imageName, a.workspace, tempFileName s.tempCounter⟩)]
    ∧ (GetDependencies s a tag).1.fs = s.fs ++ [(tempFileName s.tempCounter, [])]
    ∧ ∀ (a' : LatestArtifact) (tag' : String), a'.imageName = a.imageName →
        GetDependencies (GetDependencies s a tag).1 a' tag'
          = ((GetDependencies s a tag).1, [tempFileName s.tempCounter]) := by
  have hget : GetDependencies s a tag
      = ({ s with
            artifacts := s.artifacts
              ++ [(a.imageName, ⟨a.imageName, a.workspace, tempFileName s.tempCounter⟩)],
            fs := s.fs ++ [(tempFileName s.tempCounter, [])],
            tempCounter := s.tempCounter + 1 },
         [tempFileName s.tempCounter]) := by
    unfold GetDependencies
    rw [h]
  refine ⟨by rw [hget], by rw [hget], by rw [hget], ?_⟩
  intro a' tag' ha
  have hl : (GetDependencies s a tag).1.artifacts.lookup a'.imageName
      = some ⟨a.imageName, a.workspace, tempFileName s.tempCounter⟩ := by
    rw [hget, ha]
    simp only
    rw [lookup_append_of_none _ h]
    simp [List.lookup]
  exact getDependencies_existing hl

/-- Witness for claim C2: the first inquiry for `"img"` on a fresh resolver,
followed by a second inquiry with a different workspace and tag. -/
theorem claim_C2_firstInquiry_wit :
    NewArtifactResolver.artifacts.lookup "img" = none
    ∧ (GetDependencies NewArtifactResolver ⟨"img", "ws"⟩ "tag").2
        = [tempFileName 0]
    ∧ GetDependencies (GetDependencies NewArtifactResolver ⟨"img", "ws"⟩ "tag").1
          ⟨"img", "other"⟩ "tag2"
        = ((GetDependencies NewArtifactResolver ⟨"img", "ws"⟩ "tag").1,
           [tempFileName 0]) :=
  have h := claim_C2_firstInquiry NewArtifactResolver ⟨"img", "ws"⟩ "tag" (by decide)
  ⟨by decide, h.1, h.2.2.2 ⟨"img", "other"⟩ "tag2" (by decide)⟩

/-- Claim C6 (corrected): `TriggerRebuilds` splits the expression on commas
and trims surrounding white space from each pattern; each pattern is
compiled, and the matched list consists, pattern by pattern in order, of the
currently-known artifact names accepted by the glob semantics — which are
case-sensitive, with `*` matching any run of characters and `?` exactly one
character, but which also interpret character classes `[...]` and backslash
escapes, so that — contrary to the claim as stated — not every character
other than `*` and `?` matches only itself literally. -/
theorem claim_C6_patternSemantics (s : ResolverState) (expr : String)
    (matched : List String)
    (h : matchedArtifacts s expr = Except.ok matched) :
    ∃ gs, compileAll ((goSplitComma expr).map goTrimSpace) = some gs
      ∧ matched = gs.flatMap
          (fun g => (GetArtifacts s).filter fun nm => globMatch g nm)
      ∧ ∀ (g : List GlobNode) (cs : List Char),
          matchNodes g cs = true ↔ GlobSem g cs := by
  obtain ⟨gs, hgs, hm⟩ := collectMatches_ok (GetArtifacts s) _ matched h
  exact ⟨gs, hgs, hm, matchNodes_iff⟩

/-- Witness for claim C6 on the expression `"a, b*"` (trimming and both a
literal and a starred pattern). -/
theorem claim_C6_patternSemantics_wit :
    matchedArtifacts sampleState "a, b*" = Except.ok ["a", "b"]
    ∧ ∃ gs, compileAll ((goSplitComma "a, b*").map goTrimSpace) = some gs
      ∧ ["a", "b"] = gs.flatMap
          (fun g => (GetArtifacts sampleState).filter fun nm => globMatch g nm)
      ∧ ∀ (g : List GlobNode) (cs : List Char),
          matchNodes g cs = true ↔ GlobSem g cs :=
  ⟨by rfl, claim_C6_patternSemantics sampleState "a, b*" ["a", "b"] (by rfl)⟩

/-- Counterexample to claim C6 as stated: under the claim's semantics — in
which every character other than `*` and `?` matches only itself — the
pattern `"[ab]"` matches neither of the known names `"a"`, `"b"`, so the
call would have to fail with the no-match error; the code instead reads
`[ab]` as a character class, matches both names, and does not return the
no-match error. -/
theorem claim_C6_patternSemantics_cex :
    specGlobMatch "[ab]" "a" = false
    ∧ specGlobMatch "[ab]" "b" = false
    ∧ matchedArtifacts sampleState "[ab]" = Except.ok ["a", "b"]
    ∧ (TriggerRebuilds (some "/wd") sampleState "[ab]").2
        ≠ some (RebuildsError.noMatch "[ab]") := by
  exact ⟨by decide, by decide, by rfl, by decide⟩

/-- Claim C7 (confirmed): when some trimmed comma-separated pattern fails to
compile, `TriggerRebuilds` fails with the invalid-pattern error naming the
first such pattern and returns the state completely unchanged: no artifact
is triggered, and no matching happens past the malformed pattern. -/
theorem claim_C7_invalidPattern (wd : Option String) (s : ResolverState)
    (expr : String) (q : String)
    (h : ((goSplitComma expr).map goTrimSpace).find?
        (fun p => (globCompile p).isNone) = some q) :
    (globCompile q).isNone = true
    ∧ q ∈ (goSplitComma expr).map goTrimSpace
    ∧ TriggerRebuilds wd s expr = (s, some (RebuildsError.invalidPattern q)) := by
  have h1 := List.find?_some h
  refine ⟨by simpa using h1, List.mem_of_find?_eq_some h, ?_⟩
  have hma : matchedArtifacts s expr = Except.error q :=
    collectMatches_err (GetArtifacts s) _ q h
  simp only [TriggerRebuilds, hma]

/-- Witness for claim C7 on the expression `"a,[bad"`, whose second pattern
is malformed. -/
theorem claim_C7_invalidPattern_wit :
    ((goSplitComma "a,[bad").map goTrimSpace).find?
        (fun p => (globCompile p).isNone) = some "[bad"
    ∧ TriggerRebuilds (some "/wd") sampleState "a,[bad"
        = (sampleState, some (RebuildsError.invalidPattern "[bad")) :=
  ⟨by rfl,
    (claim_C7_invalidPattern (some "/wd") sampleState "a,[bad" "[bad"
      (by rfl)).2.2⟩

/-- Claim C8 (confirmed): when the known artifact names are distinct, a name
occurs in the matched list exactly once per comma-separated pattern
occurrence that matches it — an artifact matched by several patterns is kept
once per occurrence, with no deduplication — and the triggering loop then
attempts a rebuild for every occurrence, its delivery log growing by the
per-occurrence sends of the matched list. -/
theorem claim_C8_duplicates (wd : Option String) (s : ResolverState)
    (expr : String) (matched : List String) (name : String)
    (h : matchedArtifacts s expr = Except.ok matched)
    (h1 : (GetArtifacts s).count name = 1) :
    matched.count name
      = ((goSplitComma expr).map goTrimSpace).countP
          (fun p =>
            match globCompile p with
            | some g => globMatch g name
            | none => false)
    ∧ (runTriggers wd s matched).1.delivered
        = s.delivered ++ matched.filterMap (trigEvent wd s) := by
  obtain ⟨gs, hgs, hm⟩ := collectMatches_ok (GetArtifacts s) _ matched h
  constructor
  · rw [hm, count_flatMap_filter _ _ h1 gs,
      compileAll_countP (fun g => globMatch g name) _ gs hgs]
  · exact (runTriggers_spec wd matched s).2.1

/-- Witness for claim C8 on the expression `"a*,a,?"`: artifact `"a"` is
matched by all three patterns and appears three times; every occurrence is
triggered, so three events for `"a"` (and one for `"b"`) are delivered. -/
theorem claim_C8_duplicates_wit :
    matchedArtifacts sampleState "a*,a,?" = Except.ok ["a", "a", "a", "b"]
    ∧ (GetArtifacts sampleState).count "a" = 1
    ∧ (["a", "a", "a", "b"] : List String).count "a" = 3
    ∧ ((goSplitComma "a*,a,?").map goTrimSpace).countP
        (fun p =>
          match globCompile p with
          | some g => globMatch g "a"
          | none => false) = 3
    ∧ (runTriggers (some "/wd") sampleState ["a", "a", "a", "b"]).1.delivered
        = sampleState.delivered
            ++ (["a", "a", "a", "b"] : List String).filterMap
                (trigEvent (some "/wd") sampleState) :=
  have h := claim_C8_duplicates (some "/wd") sampleState "a*,a,?"
    ["a", "a", "a", "b"] "a" (by rfl) (by decide)
  ⟨by rfl, by decide, by decide, by decide, h.2⟩

/-- Claim C9 (confirmed): once the match set is computed, an empty set makes
`TriggerRebuilds` fail with the no-match error naming the original pattern
expression, leaving the state unchanged; a non-empty set makes it attempt a
rebuild for every matched name with no short-circuit, failing with the
aggregate error listing exactly the failing names paired with their reasons
if and only if at least one attempt failed, while the delivery log still
gains the events of every succeeding attempt. -/
theorem claim_C9_fanout (wd : Option String) (s : ResolverState)
    (expr : String) (matched : List String)
    (h : matchedArtifacts s expr = Except.ok matched) :
    (matched = [] →
      TriggerRebuilds wd s expr = (s, some (RebuildsError.noMatch expr)))
    ∧ (matched ≠ [] →
        TriggerRebuilds wd s expr
          = ((runTriggers wd s matched).1,
             if (matched.filterMap fun n =>
                  (trigStatus wd s n).map fun e => (n, e)).isEmpty
             then none
             else some (RebuildsError.aggregate
               (matched.filterMap fun n =>
                 (trigStatus wd s n).map fun e => (n, e))))
        ∧ (runTriggers wd s matched).1.delivered
            = s.delivered ++ matched.filterMap (trigEvent wd s)) := by
  obtain ⟨he, hd, -, -⟩ := runTriggers_spec wd matched s
  constructor
  · intro hempty
    subst hempty
    simp only [TriggerRebuilds, h, List.isEmpty_nil, if_true]
  · intro hne
    refine ⟨?_, hd⟩
    have hie : matched.isEmpty = false := by
      simpa [List.isEmpty_iff] using hne
    cases hrt : runTriggers wd s matched with
    | mk s₁ errs =>
      rw [hrt] at he
      simp only [TriggerRebuilds, h, hie, Bool.false_eq_true, if_false, hrt, he]
      split <;> simp [*]

/-- Witness for claim C9 on the expression `"a,b"`: `"a"` is watched and
receives its event, `"b"` has no watch, so the call fails with an aggregate
naming exactly `"b"` while the state reflects the successful send for
`"a"`. -/
theorem claim_C9_fanout_wit :
    matchedArtifacts sampleState "a,b" = Except.ok ["a", "b"]
    ∧ (["a", "b"] : List String) ≠ []
    ∧ TriggerRebuilds (some "/wd") sampleState "a,b"
        = ((runTriggers (some "/wd") sampleState ["a", "b"]).1,
           some (RebuildsError.aggregate
             [("b", TrigError.watchNotFound "b" "/wd/wb/...")]))
    ∧ (runTriggers (some "/wd") sampleState ["a", "b"]).1.delivered
        = sampleState.delivered ++ [(3, FakeEventInfo.mk "/tmp/skaf0-0")] :=
  have h := claim_C9_fanout (some "/wd") sampleState "a,b" ["a", "b"] (by rfl)
  have h2 := h.2 (by decide)
  ⟨by rfl, by decide, h2.1.trans (by decide), h2.2.trans (by decide)⟩

end Skaf0
